import Mathlib

/-!
# Verification of the 6502 JIT core (`src/main.c`)

This file is a shallow embedding of the dynamic binary translator in
`src/main.c` together with proofs about it.

The embedding has two layers:

* **Layer A — emitted host bytes.**  `jit_init`, `jit_emit_int`,
  `jit_emit_do_jmp_next`, `jit_emit_do_relative_jump`,
  `jit_emit_do_zn_flags` and the big `switch` of `jit_jit` are transcribed
  as pure functions producing the exact lists of host (x86-64) bytes the C
  code writes into the translation arena.  C `assert`s are modelled by
  returning `none`.  Machine integers are modelled as `Nat`/`Int` with
  explicit truncation (`% 256`, `% 2^32`) where the C code truncates.

* **Layer B — slot semantics.**  Each `case` of the `switch` emits a fixed
  host-instruction sequence whose effect on the pinned guest registers
  (al = A, ah = C, bl = X, bh = Y, cl = S with ch pinned to 1, dl = Z,
  dh = N, r8 = packed V/I/D/B/U bits, rdi = guest memory base) is read off
  the instruction comments in the source.  `Instr` names that effect, the
  translator `jitRange` mirrors the `jit_jit` loop (including the
  operand clipping at the end of the translated range), and `step` is the
  state transition a slot performs when control reaches it.  Stores write
  guest memory only — the code contains no invalidation — and control
  transfers move `pc` exactly as the emitted `lea`/`jmp` arithmetic does.
-/

namespace Beebjit

/-! ## Constants from `src/main.c` -/

def k_addr_space_size : Nat := 0x10000
def k_guard_size : Nat := 4096
def k_os_rom_offset : Nat := 0xc000
def k_os_rom_len : Nat := 0x4000
def k_jit_bytes_per_byte : Nat := 64
def k_vector_reset : Nat := 0xfffc

/-- Offset of the JIT arena from the guest-memory base pointer `p_mem`:
`p_jit = p_mem + k_addr_space_size + k_guard_size`. -/
def arenaOff : Nat := k_addr_space_size + k_guard_size

/-! ## Layer A: emitted host bytes -/

/-- `jit_emit_int`: append the four little-endian bytes of a 32-bit value.
The C code stores `offset & 0xff` and arithmetically shifts, which for any
`ssize_t` in range produces the bytes of `offset mod 2^32`. -/
def jit_emit_int (b : List Nat) (offset : Int) : List Nat :=
  let v : Nat := (offset % (2 ^ 32 : Int)).toNat
  b ++ [v % 256, (v >>> 8) % 256, (v >>> 16) % 256, (v >>> 24) % 256]

/-- `jit_emit_do_jmp_next`: terminating jump to the slot of the next guest
byte, `jit_stride * oplen` host bytes after the start of this slot.
`none` models a failed `assert(index + 2 <= jit_stride)`. -/
def jit_emit_do_jmp_next (jit_stride : Nat) (b : List Nat) (oplen : Nat) :
    Option (List Nat) :=
  if b.length + 2 ≤ jit_stride then
    let offset : Int := (jit_stride * oplen : Nat) - ((b.length + 2 : Nat) : Int)
    if 0 ≤ offset ∧ offset ≤ 0x7f then
      some (b ++ [0xeb, offset.toNat])
    else
      some (jit_emit_int (b ++ [0xe9]) (offset - 3))
  else none

/-- Sign-extend an operand byte, as the C cast `(char) unsigned_jump_size`
does. -/
def sbyte (v : Nat) : Int := if v < 128 then (v : Int) else (v : Int) - 256

/-- `jit_emit_do_relative_jump`: conditional jump to the slot
`jump_size + 2` guest bytes after this one.  Short 2-byte `Jcc rel8` when
the host byte distance fits a signed 8-bit displacement, else the 6-byte
`0F Jcc rel32` form.  `none` models a failed `assert`. -/
def jit_emit_do_relative_jump (jit_stride : Nat) (b : List Nat)
    (intel_opcode : Nat) (unsigned_jump_size : Nat) : Option (List Nat) :=
  let jump_size : Int := sbyte unsigned_jump_size
  let offset : Int := (jit_stride : Int) * (jump_size + 2) - ((b.length + 2 : Nat) : Int)
  if offset ≤ 0x7f ∧ -0x80 ≤ offset then
    if b.length + 2 ≤ jit_stride then
      some (b ++ [intel_opcode, (offset % 256).toNat])
    else none
  else
    if b.length + 6 ≤ jit_stride then
      some (jit_emit_int (b ++ [0x0f, intel_opcode + 0x10]) (offset - 4))
    else none

/-- `jit_emit_do_zn_flags`: materialize the Z and N shards (`sete dl`,
`sets dh`), optionally preceded by a `test` of the named register
(`-1` = flags already set, `0` = al, `1` = bl, `2` = bh).
`none` models a failed `assert(index + 8 <= k_jit_bytes_per_byte)`. -/
def jit_emit_do_zn_flags (b : List Nat) (reg : Int) : Option (List Nat) :=
  if b.length + 8 ≤ k_jit_bytes_per_byte then
    let t : List Nat :=
      if reg = 0 then [0x84, 0xc0]
      else if reg = 1 then [0x84, 0xdb]
      else if reg = 2 then [0x84, 0xff]
      else []
    some (b ++ t ++ [0x0f, 0x94, 0xc2, 0x0f, 0x98, 0xc6])
  else none

/-- The bytes one iteration of the `jit_jit` loop writes at the start of
the slot for the guest byte at `jit_offset`, given the opcode and the
(possibly clipped) operand bytes.  Follows the `switch` in `jit_jit`
case by case; `none` models a failed `assert` in an emit helper. -/
def jitBytesOne (jit_stride : Nat) (opcode operand1 operand2 jit_offset : Nat) :
    Option (List Nat) :=
  match opcode with
  | 0x08 =>
      -- PHP: assemble packed P into rsi from r8, ah (C), dl (Z), dh (N);
      -- store at [rdi + rcx]; dec cl.
      let b : List Nat :=
        [0x4c, 0x89, 0xc6,                -- mov rsi, r8
         0x49, 0x89, 0xc1,                -- mov r9, rax
         0x49, 0xc1, 0xe9, 0x08,          -- shr r9, 8
         0x4c, 0x09, 0xce,                -- or rsi, r9
         0x49, 0x89, 0xd1,                -- mov r9, rdx
         0x49, 0x83, 0xe1, 0x01,          -- and r9, 1
         0x49, 0xd1, 0xe1,                -- shl r9, 1
         0x4c, 0x09, 0xce,                -- or rsi, r9
         0x49, 0x89, 0xd1,                -- mov r9, rdx
         0x49, 0xc1, 0xe9, 0x08,          -- shr r9, 8
         0x49, 0xc1, 0xe1, 0x07,          -- shl r9, 7
         0x4c, 0x09, 0xce,                -- or rsi, r9
         0x40, 0x88, 0x34, 0x0f,          -- mov [rdi + rcx], sil
         0xfe, 0xc9]                      -- dec cl
      jit_emit_do_jmp_next jit_stride b 1
  | 0x09 =>
      -- ORA #imm
      (jit_emit_do_zn_flags [0x0c, operand1] (-1)).bind fun b =>
        jit_emit_do_jmp_next jit_stride b 2
  | 0x0a =>
      -- ASL A: shl al, 1; setb ah
      (jit_emit_do_zn_flags [0xd0, 0xe0, 0x0f, 0x92, 0xc4] (-1)).bind fun b =>
        jit_emit_do_jmp_next jit_stride b 1
  | 0x10 =>
      -- BPL: test dh, dh; je
      (jit_emit_do_relative_jump jit_stride [0x84, 0xf6] 0x74 operand1).bind
        fun b => jit_emit_do_jmp_next jit_stride b 2
  | 0x24 =>
      -- BIT zp
      let b : List Nat :=
        jit_emit_int [0x8a, 0x97] operand1 ++  -- mov dl, [rdi + op1]
        [0x0f, 0xba, 0xe2, 0x07,          -- bt edx, 7
         0x0f, 0x92, 0xc6,                -- setb dh
         0x89, 0xd6,                      -- mov esi, edx
         0x83, 0xe6, 0x40,                -- and esi, 0x40
         0x41, 0x80, 0xe0, 0xbf,          -- and r8b, 0xbf
         0x49, 0x09, 0xf0,                -- or r8, rsi
         0x20, 0xc2,                      -- and dl, al
         0x0f, 0x94, 0xc2]                -- sete dl
      jit_emit_do_jmp_next jit_stride b 2
  | 0x26 =>
      -- ROL zp: shr ah, 1; rcl [rdi + op1], 1; setb ah
      (jit_emit_do_zn_flags
          (jit_emit_int [0xd0, 0xec, 0xd0, 0x97] operand1 ++
            [0x0f, 0x92, 0xc4]) (-1)).bind fun b =>
        jit_emit_do_jmp_next jit_stride b 2
  | 0x28 =>
      -- PLP: inc cl; load packed P; scatter into ah/dl/dh; mask r8b.
      let b : List Nat :=
        [0xfe, 0xc1,                      -- inc cl
         0x44, 0x8a, 0x04, 0x0f,          -- mov r8b, [rdi + rcx]
         0x49, 0x0f, 0xba, 0xe0, 0x00,    -- bt r8, 0
         0x0f, 0x92, 0xc4,                -- setb ah
         0x49, 0x0f, 0xba, 0xe0, 0x01,    -- bt r8, 1
         0x0f, 0x92, 0xc2,                -- setb dl
         0x49, 0x0f, 0xba, 0xe0, 0x07,    -- bt r8, 7
         0x0f, 0x92, 0xc6,                -- setb dh
         0x41, 0x80, 0xe0, 0x7c]          -- and r8b, 0x7c
      jit_emit_do_jmp_next jit_stride b 1
  | 0x29 =>
      -- AND #imm
      (jit_emit_do_zn_flags [0x24, operand1] (-1)).bind fun b =>
        jit_emit_do_jmp_next jit_stride b 2
  | 0x38 =>
      -- SEC: mov ah, 1
      jit_emit_do_jmp_next jit_stride [0xb4, 0x01] 1
  | 0x66 =>
      -- ROR zp: shr ah, 1; rcr [rdi + op1], 1; setb ah
      (jit_emit_do_zn_flags
          (jit_emit_int [0xd0, 0xec, 0xd0, 0x9f] operand1 ++
            [0x0f, 0x92, 0xc4]) (-1)).bind fun b =>
        jit_emit_do_jmp_next jit_stride b 2
  | 0x20 =>
      -- JSR: recover the guest address of this slot from rip, push the
      -- guest return address (slot + 2) onto the page-1 stack, jump to
      -- the target slot.
      some
        (jit_emit_int
          (jit_emit_int [0x50,            -- push rax
             0x48, 0x8d, 0x05]            -- lea rax, [rip - (space+guard)]
            (-((k_addr_space_size + k_guard_size : Nat) : Int)) ++
           [0x48, 0x29, 0xf8,             -- sub rax, rdi
            0xc1, 0xe8, 0x06,             -- shr eax, 6 (2^6 == jit_stride)
            0x83, 0xc0, 0x02,             -- add eax, 2
            0x88, 0x24, 0x0f,             -- mov [rdi + rcx], ah
            0xfe, 0xc9,                   -- dec cl
            0x88, 0x04, 0x0f,             -- mov [rdi + rcx], al
            0xfe, 0xc9,                   -- dec cl
            0x58,                         -- pop rax
            0x48, 0x8d, 0xb7])            -- lea rsi, [rdi + disp32]
          ((k_addr_space_size + k_guard_size +
              (operand1 + (operand2 <<< 8)) * jit_stride : Nat) : Int) ++
         [0xff, 0xe6])                    -- jmp rsi
  | 0x48 =>
      -- PHA: mov [rdi + rcx], al; dec cl
      jit_emit_do_jmp_next jit_stride [0x88, 0x04, 0x0f, 0xfe, 0xc9] 1
  | 0x4a =>
      -- LSR A: shr al, 1; setb ah
      (jit_emit_do_zn_flags [0xd0, 0xe8, 0x0f, 0x92, 0xc4] (-1)).bind fun b =>
        jit_emit_do_jmp_next jit_stride b 1
  | 0x4c =>
      -- JMP abs: lea rsi, [rdi + space + guard + target * stride]; jmp rsi
      some
        (jit_emit_int [0x48, 0x8d, 0xb7]
          ((k_addr_space_size + k_guard_size +
              (operand1 + (operand2 <<< 8)) * jit_stride : Nat) : Int) ++
         [0xff, 0xe6])
  | 0x50 =>
      -- BVC: test r8b, 0x40; je
      (jit_emit_do_relative_jump jit_stride [0x41, 0xf6, 0xc0, 0x40] 0x74
          operand1).bind fun b =>
        jit_emit_do_jmp_next jit_stride b 2
  | 0x58 =>
      -- CLI: btr r8, 2
      jit_emit_do_jmp_next jit_stride [0x49, 0x0f, 0xba, 0xf0, 0x02] 1
  | 0x60 =>
      -- RTS: pop return address from the page-1 stack, add 1, scale by
      -- the stride, jump into the arena.
      some
        (jit_emit_int
          [0x50,                          -- push rax
           0xfe, 0xc1,                    -- inc cl
           0x8a, 0x04, 0x0f,              -- mov al, [rdi + rcx]
           0xfe, 0xc1,                    -- inc cl
           0x8a, 0x24, 0x0f,              -- mov ah, [rdi + rcx]
           0x66, 0xff, 0xc0,              -- inc ax
           0xc1, 0xe0, 0x06,              -- shl eax, 6
           0x48, 0x8d, 0xb4, 0x38]        -- lea rsi, [rax + rdi + disp32]
          ((k_addr_space_size + k_guard_size : Nat) : Int) ++
         [0x58,                           -- pop rax
          0xff, 0xe6])                    -- jmp rsi
  | 0x68 =>
      -- PLA: inc cl; mov al, [rdi + rcx]
      (jit_emit_do_zn_flags [0xfe, 0xc1, 0x8a, 0x04, 0x0f] 0).bind fun b =>
        jit_emit_do_jmp_next jit_stride b 1
  | 0x6a =>
      -- ROR A: shr ah, 1; rcr al, 1; setb ah
      (jit_emit_do_zn_flags [0xd0, 0xec, 0xd0, 0xd8, 0x0f, 0x92, 0xc4]
          (-1)).bind fun b =>
        jit_emit_do_jmp_next jit_stride b 1
  | 0x78 =>
      -- SEI: bts r8, 2
      jit_emit_do_jmp_next jit_stride [0x49, 0x0f, 0xba, 0xe8, 0x02] 1
  | 0x85 =>
      -- STA zp: mov [rdi + op1], al (32-bit displacement)
      jit_emit_do_jmp_next jit_stride
        [0x88, 0x87, operand1, 0x00, 0x00, 0x00] 2
  | 0x88 =>
      -- DEY: dec bh
      (jit_emit_do_zn_flags [0xfe, 0xcf] (-1)).bind fun b =>
        jit_emit_do_jmp_next jit_stride b 1
  | 0x8a =>
      -- TXA: mov al, bl
      (jit_emit_do_zn_flags [0x88, 0xd8] 0).bind fun b =>
        jit_emit_do_jmp_next jit_stride b 1
  | 0x8d =>
      -- STA abs: mov [rdi + op1,op2], al
      jit_emit_do_jmp_next jit_stride
        [0x88, 0x87, operand1, operand2, 0, 0] 3
  | 0x8c =>
      -- STY abs: mov [rdi + op1,op2], bh
      jit_emit_do_jmp_next jit_stride
        [0x88, 0xbf, operand1, operand2, 0, 0] 3
  | 0x8e =>
      -- STX abs: mov [rdi + op1,op2], bl
      jit_emit_do_jmp_next jit_stride
        [0x88, 0x9f, operand1, operand2, 0, 0] 3
  | 0x90 =>
      -- BCC: test ah, ah; je
      (jit_emit_do_relative_jump jit_stride [0x84, 0xe4] 0x74 operand1).bind
        fun b => jit_emit_do_jmp_next jit_stride b 2
  | 0x95 =>
      -- STA zp, X: mov esi, ebx; add si, op1; and si, 0xff;
      -- mov [rdi + rsi], al
      jit_emit_do_jmp_next jit_stride
        [0x89, 0xde,
         0x66, 0x81, 0xc6, operand1, 0x00,
         0x66, 0x81, 0xe6, 0xff, 0x00,
         0x88, 0x04, 0x37] 2
  | 0x99 =>
      -- STA abs, Y: mov esi, ebx; shr esi, 8; add si, op1,op2;
      -- mov [rdi + rsi], al
      jit_emit_do_jmp_next jit_stride
        [0x89, 0xde,
         0xc1, 0xee, 0x08,
         0x66, 0x81, 0xc6, operand1, operand2,
         0x88, 0x04, 0x37] 3
  | 0x9a =>
      -- TXS: mov cl, bl
      jit_emit_do_jmp_next jit_stride [0x88, 0xd9] 1
  | 0x9d =>
      -- STA abs, X: mov esi, ebx; and si, 0xff; add si, op1,op2;
      -- mov [rdi + rsi], al
      jit_emit_do_jmp_next jit_stride
        [0x89, 0xde,
         0x66, 0x81, 0xe6, 0xff, 0x00,
         0x66, 0x81, 0xc6, operand1, operand2,
         0x88, 0x04, 0x37] 3
  | 0xa0 =>
      -- LDY #imm: mov bh, op1
      (jit_emit_do_zn_flags [0xb7, operand1] 2).bind fun b =>
        jit_emit_do_jmp_next jit_stride b 2
  | 0xa2 =>
      -- LDX #imm: mov bl, op1
      (jit_emit_do_zn_flags [0xb3, operand1] 1).bind fun b =>
        jit_emit_do_jmp_next jit_stride b 2
  | 0xa9 =>
      -- LDA #imm: mov al, op1
      (jit_emit_do_zn_flags [0xb0, operand1] 0).bind fun b =>
        jit_emit_do_jmp_next jit_stride b 2
  | 0xaa =>
      -- TAX: mov bl, al
      (jit_emit_do_zn_flags [0x88, 0xc3] 1).bind fun b =>
        jit_emit_do_jmp_next jit_stride b 1
  | 0xac =>
      -- LDY abs: mov bh, [rdi + op1,op2]
      (jit_emit_do_zn_flags [0x8a, 0xbf, operand1, operand2, 0, 0] 2).bind
        fun b => jit_emit_do_jmp_next jit_stride b 3
  | 0xad =>
      -- LDA abs: mov al, [rdi + op1,op2]
      (jit_emit_do_zn_flags [0x8a, 0x87, operand1, operand2, 0, 0] 0).bind
        fun b => jit_emit_do_jmp_next jit_stride b 3
  | 0xae =>
      -- LDX abs: mov bl, [rdi + op1,op2]
      (jit_emit_do_zn_flags [0x8a, 0x9f, operand1, operand2, 0, 0] 1).bind
        fun b => jit_emit_do_jmp_next jit_stride b 3
  | 0xb0 =>
      -- BCS: test ah, ah; jne
      (jit_emit_do_relative_jump jit_stride [0x84, 0xe4] 0x75 operand1).bind
        fun b => jit_emit_do_jmp_next jit_stride b 2
  | 0xb9 =>
      -- LDA abs, Y: mov esi, ebx; shr esi, 8; add si, op1,op2;
      -- mov al, [rdi + rsi]
      jit_emit_do_jmp_next jit_stride
        [0x89, 0xde,
         0xc1, 0xee, 0x08,
         0x66, 0x81, 0xc6, operand1, operand2,
         0x8a, 0x04, 0x37] 3
  | 0xc9 =>
      -- CMP #imm: mov ah, al; sub ah, op1; setae ah
      (jit_emit_do_zn_flags
          [0x88, 0xc4, 0x80, 0xec, operand1, 0x0f, 0x93, 0xc4] (-1)).bind
        fun b => jit_emit_do_jmp_next jit_stride b 2
  | 0xca =>
      -- DEX: dec bl
      (jit_emit_do_zn_flags [0xfe, 0xcb] (-1)).bind fun b =>
        jit_emit_do_jmp_next jit_stride b 1
  | 0xcd =>
      -- CMP abs: mov ah, al; sub ah, [rdi + op1,op2]; setae ah
      (jit_emit_do_zn_flags
          [0x88, 0xc4, 0x2a, 0xa7, operand1, operand2, 0, 0,
           0x0f, 0x93, 0xc4] (-1)).bind
        fun b => jit_emit_do_jmp_next jit_stride b 3
  | 0xd0 =>
      -- BNE: test dl, dl; je
      (jit_emit_do_relative_jump jit_stride [0x84, 0xd2] 0x74 operand1).bind
        fun b => jit_emit_do_jmp_next jit_stride b 2
  | 0xd8 =>
      -- CLD: btr r8, 3
      jit_emit_do_jmp_next jit_stride [0x49, 0x0f, 0xba, 0xf0, 0x03] 1
  | 0xe0 =>
      -- CPX #imm: mov ah, bl; sub ah, op1; setae ah
      (jit_emit_do_zn_flags
          [0x88, 0xdc, 0x80, 0xec, operand1, 0x0f, 0x93, 0xc4] (-1)).bind
        fun b => jit_emit_do_jmp_next jit_stride b 2
  | 0xe8 =>
      -- INX: inc bl
      (jit_emit_do_zn_flags [0xfe, 0xc3] (-1)).bind fun b =>
        jit_emit_do_jmp_next jit_stride b 1
  | 0xf0 =>
      -- BEQ: test dl, dl; jne
      (jit_emit_do_relative_jump jit_stride [0x84, 0xd2] 0x75 operand1).bind
        fun b => jit_emit_do_jmp_next jit_stride b 2
  | _ =>
      -- Unimplemented opcode: ud2; opcode byte; big-endian guest address.
      some [0x0f, 0x0b, opcode, (jit_offset >>> 8) % 256, jit_offset % 256]

/-- One entry of the translation pass: guest address, host offset
(relative to `p_mem`) at which the slot's bytes are written, and the
bytes (`none` for an assertion failure). -/
structure JitOut where
  guest : Nat
  host : Nat
  bytes : Option (List Nat)
  deriving Repr, DecidableEq

/-- The loop body of `jit_jit`, iterating `jit_offset` from `off` while
`jit_offset < jit_end`.  `p_jit` carries the current host write offset;
the loop advances it by `jit_stride` per guest byte.  Operand bytes at or
past `jit_end` are left at their initialisation value `0`
(`if (jit_offset + 1 < jit_end) operand1 = p_mem[1];` and similarly for
`operand2`). -/
def jitLoop (mem : Nat → Nat) (jit_stride jit_end : Nat) :
    Nat → Nat → List JitOut
  | _, 0 => []
  | jit_offset, fuel + 1 =>
    if jit_offset < jit_end then
      -- Reads go through `unsigned char`, hence the truncation to a byte.
      let opcode := mem jit_offset % 256
      let operand1 := if jit_offset + 1 < jit_end then mem (jit_offset + 1) % 256 else 0
      let operand2 := if jit_offset + 2 < jit_end then mem (jit_offset + 2) % 256 else 0
      { guest := jit_offset,
        host := arenaOff + jit_offset * jit_stride,
        bytes := jitBytesOne jit_stride opcode operand1 operand2 jit_offset } ::
        jitLoop mem jit_stride jit_end (jit_offset + 1) fuel
    else []

/-- `jit_jit(p_mem, jit_stride, jit_offset, jit_len)`: translate guest
bytes `[jit_offset, jit_offset + jit_len)`.  `p_jit` starts at
`p_mem + k_addr_space_size + k_guard_size + jit_offset * jit_stride`. -/
def jit_jit (mem : Nat → Nat) (jit_stride jit_offset jit_len : Nat) :
    List JitOut :=
  jitLoop mem jit_stride (jit_offset + jit_len) jit_offset jit_len

/-- `jit_init(p_mem, jit_stride, num_bytes)` as a byte map over host
offsets relative to the arena base: first `memset` fills
`num_bytes * jit_stride` bytes with `0x90` (nop), then the loop writes the
2-byte `ud2` (`0x0f 0x0b`) at the start of each slot, advancing `p_jit` by
`jit_stride`. -/
def jitInitLoop (jit_stride : Nat) : Nat → Nat → (Nat → Nat) → (Nat → Nat)
  | _, 0, arena => arena
  | p, n + 1, arena =>
    jitInitLoop jit_stride (p + jit_stride) n
      (Function.update (Function.update arena p 0x0f) (p + 1) 0x0b)

def jit_init (jit_stride num_bytes : Nat) : Nat → Nat :=
  jitInitLoop jit_stride 0 num_bytes (fun _ => 0x90)

/-- `jit_enter(p_mem, jit_stride, vector_addr)`: the host offset (relative
to `p_mem`) of the slot the inline asm jumps to — the little-endian word
at `vector_addr` scaled by the stride, past the address space and the
guard page. -/
def jit_enter_entry (mem : Nat → Nat) (jit_stride vector_addr : Nat) : Nat :=
  let addr_lsb := mem vector_addr % 256        -- unsigned char
  let addr_msb := mem (vector_addr + 1) % 256  -- unsigned char
  let addr := (addr_msb <<< 8) ||| addr_lsb
  (k_addr_space_size + k_guard_size) + addr * jit_stride

/-! ## Layer B: slot semantics

The register ABI (from the inline asm in `jit_enter` and the emitter
comments): `al` = A, `ah` = C, `bl` = X, `bh` = Y, `cl` = S with `ch`
pinned to `0x01`, `dl` = Z shard, `dh` = N shard, `r8` = the remaining
packed flag bits (bit 5 always set, bit 4 set for BRK/PHP), `rdi` = guest
memory base.  Each `Instr` names the effect of one emitted slot body on
this register file, read off the instruction comments of the
corresponding `case`. -/

/-- Effective address of `STA zp, X` (`mov esi, ebx`; `add si, op1`;
`and si, 0xff`): `ebx` holds `X` in `bl` and `Y` in `bh`. -/
def effAddrZpX (x y imm : Nat) : Nat := ((x + 256 * y + imm) % 65536) % 256

/-- Effective address of `STA abs, X` (`mov esi, ebx`; `and si, 0xff`;
`add si, op1,op2`). -/
def effAddrAbsX (x y ad : Nat) : Nat := ((x + 256 * y) % 256 + ad) % 65536

/-- Effective address of the `abs, Y` modes (`mov esi, ebx`;
`shr esi, 8`; `add si, op1,op2`); for byte-valued X and Y the shifted
value fits in 16 bits, so the 16-bit add is addition mod 2^16. -/
def effAddrAbsY (x y ad : Nat) : Nat := ((x + 256 * y) / 256 + ad) % 65536

/-- Semantic content of one translated slot. -/
inductive Instr where
  | php | plp | pha | pla
  | oraImm (imm : Nat) | andImm (imm : Nat)
  | aslA | lsrA | rorA
  | rolZp (zp : Nat) | rorZp (zp : Nat) | bitZp (zp : Nat)
  | sec | cli | sei | cld
  | bpl (tgt : Int) | bvc (tgt : Int) | bcc (tgt : Int) | bcs (tgt : Int)
  | bne (tgt : Int) | beq (tgt : Int)
  | jsr (tgt : Nat) | jmpAbs (tgt : Nat) | rts
  | staZp (zp : Nat) | staAbs (ad : Nat) | styAbs (ad : Nat) | stxAbs (ad : Nat)
  | staZpX (zp : Nat) | staAbsX (ad : Nat) | staAbsY (ad : Nat)
  | ldaImm (imm : Nat) | ldxImm (imm : Nat) | ldyImm (imm : Nat)
  | ldaAbs (ad : Nat) | ldxAbs (ad : Nat) | ldyAbs (ad : Nat)
  | ldaAbsY (ad : Nat)
  | cmpImm (imm : Nat) | cpxImm (imm : Nat) | cmpAbs (ad : Nat)
  | tax | txa | txs | inx | dex | dey
  deriving Repr, DecidableEq

/-- A slot of the arena: untranslated (the `jit_init` fill), translated
code, or the invalid-instruction sentinel emitted for an unimplemented
opcode (`ud2`, the opcode byte, the big-endian guest address). -/
inductive Slot where
  | untranslated
  | instr (i : Instr)
  | badOp (opcode hi lo : Nat)
  deriving Repr, DecidableEq

/-- Decode of one `jit_jit` loop iteration: which semantic instruction
the emitted bytes implement, with the translation-time operand bytes
baked in (immediates, displacements and jump targets are literal bytes
of the emitted host code). -/
def jitByte (opcode op1 op2 off : Nat) : Slot :=
  match opcode with
  | 0x08 => .instr .php
  | 0x09 => .instr (.oraImm op1)
  | 0x0a => .instr .aslA
  | 0x10 => .instr (.bpl ((off : Int) + 2 + sbyte op1))
  | 0x24 => .instr (.bitZp op1)
  | 0x26 => .instr (.rolZp op1)
  | 0x28 => .instr .plp
  | 0x29 => .instr (.andImm op1)
  | 0x38 => .instr .sec
  | 0x66 => .instr (.rorZp op1)
  | 0x20 => .instr (.jsr (op1 + (op2 <<< 8)))
  | 0x48 => .instr .pha
  | 0x4a => .instr .lsrA
  | 0x4c => .instr (.jmpAbs (op1 + (op2 <<< 8)))
  | 0x50 => .instr (.bvc ((off : Int) + 2 + sbyte op1))
  | 0x58 => .instr .cli
  | 0x60 => .instr .rts
  | 0x68 => .instr .pla
  | 0x6a => .instr .rorA
  | 0x78 => .instr .sei
  | 0x85 => .instr (.staZp op1)
  | 0x88 => .instr .dey
  | 0x8a => .instr .txa
  | 0x8d => .instr (.staAbs (op1 + (op2 <<< 8)))
  | 0x8c => .instr (.styAbs (op1 + (op2 <<< 8)))
  | 0x8e => .instr (.stxAbs (op1 + (op2 <<< 8)))
  | 0x90 => .instr (.bcc ((off : Int) + 2 + sbyte op1))
  | 0x95 => .instr (.staZpX op1)
  | 0x99 => .instr (.staAbsY (op1 + (op2 <<< 8)))
  | 0x9a => .instr .txs
  | 0x9d => .instr (.staAbsX (op1 + (op2 <<< 8)))
  | 0xa0 => .instr (.ldyImm op1)
  | 0xa2 => .instr (.ldxImm op1)
  | 0xa9 => .instr (.ldaImm op1)
  | 0xaa => .instr .tax
  | 0xac => .instr (.ldyAbs (op1 + (op2 <<< 8)))
  | 0xad => .instr (.ldaAbs (op1 + (op2 <<< 8)))
  | 0xae => .instr (.ldxAbs (op1 + (op2 <<< 8)))
  | 0xb0 => .instr (.bcs ((off : Int) + 2 + sbyte op1))
  | 0xb9 => .instr (.ldaAbsY (op1 + (op2 <<< 8)))
  | 0xc9 => .instr (.cmpImm op1)
  | 0xca => .instr .dex
  | 0xcd => .instr (.cmpAbs (op1 + (op2 <<< 8)))
  | 0xd0 => .instr (.bne ((off : Int) + 2 + sbyte op1))
  | 0xd8 => .instr .cld
  | 0xe0 => .instr (.cpxImm op1)
  | 0xe8 => .instr .inx
  | 0xf0 => .instr (.beq ((off : Int) + 2 + sbyte op1))
  | _ => .badOp opcode ((off >>> 8) % 256) (off % 256)

/-- The `jit_jit` loop at the slot level: translate guest bytes from
`off` while `off < jit_end`, clipping operand reads at `jit_end` exactly
as the byte-level loop does. -/
def jitRange (mem : Nat → Nat) (jit_end : Nat) :
    Nat → Nat → (Nat → Slot) → (Nat → Slot)
  | _, 0, slots => slots
  | off, fuel + 1, slots =>
    if off < jit_end then
      let opcode := mem off % 256
      let op1 := if off + 1 < jit_end then mem (off + 1) % 256 else 0
      let op2 := if off + 2 < jit_end then mem (off + 2) % 256 else 0
      jitRange mem jit_end (off + 1) fuel
        (Function.update slots off (jitByte opcode op1 op2 off))
    else slots

/-- Slot-level `jit_jit(p_mem, ·, jit_offset, jit_len)`. -/
def jitTranslate (mem : Nat → Nat) (off len : Nat) (slots : Nat → Slot) :
    Nat → Slot :=
  jitRange mem (off + len) off len slots

/-- Machine state while translated code runs: guest memory, the arena
(as slots), the pinned guest registers and the guest address of the slot
about to execute. -/
structure St where
  mem : Nat → Nat
  slots : Nat → Slot
  a : Nat
  c : Nat
  x : Nat
  y : Nat
  s : Nat
  z : Nat
  n : Nat
  r8 : Nat
  pc : Nat

/-- Outcome of executing one slot: fall through / jump to another slot,
hit a `ud2` (untranslated slot or unimplemented-opcode sentinel), or
compute a control transfer outside the arena and fault on a guard page. -/
inductive StepResult where
  | ok (st : St)
  | ud (st : St)
  | guard (st : St)

/-- Z shard after `sete dl` on a byte-valued result. -/
def zOf (v : Nat) : Nat := if v = 0 then 1 else 0

/-- N shard after `sets dh` on a byte-valued result. -/
def nOf (v : Nat) : Nat := v / 128 % 2

/-- The fall-through `jit_emit_do_jmp_next` jump: to the slot `oplen`
guest bytes further on; past guest address 0xFFFF that host address is on
a guard page. -/
def fallNext (oplen : Nat) (st : St) : StepResult :=
  if st.pc + oplen < 0x10000 then .ok { st with pc := st.pc + oplen }
  else .guard st

/-- A taken emitted branch: the relative host jump lands `tgt` slots from
the arena base; outside `[0, 0x10000)` that is not a slot and faults. -/
def branchTo (tgt : Int) (st : St) : StepResult :=
  if 0 ≤ tgt ∧ tgt < 0x10000 then .ok { st with pc := tgt.toNat }
  else .guard st

/-- The packed P byte PHP assembles in `rsi`:
`r8`, OR `rax >> 8` (the C shard in `ah`), OR bit 1 of `rdx` shifted to
bit 1 (the Z shard in `dl`), OR `rdx >> 8` (the N shard in `dh`) shifted
to bit 7. -/
def packedP (st : St) : Nat :=
  st.r8 ||| ((st.a + 256 * st.c) >>> 8) |||
    (((st.z + 256 * st.n) &&& 1) <<< 1) |||
    (((st.z + 256 * st.n) >>> 8) <<< 7)

/-- Effect of one slot body on the machine state, as emitted by the
corresponding `case` of `jit_jit` (the x86 sequences are quoted in
`jitBytesOne`).  Memory loads read one byte (`% 256`); stores write the
byte register named by the emitted `mov`. -/
def exec (i : Instr) (st : St) : StepResult :=
  match i with
  | .php =>
      fallNext 1
        { st with
          mem := Function.update st.mem (0x100 + st.s) (packedP st % 256),
          s := (st.s + 255) % 256 }
  | .plp =>
      let s1 := (st.s + 1) % 256
      let p := st.mem (0x100 + s1) % 256
      fallNext 1
        { st with
          s := s1,
          c := p % 2,
          z := p / 2 % 2,
          n := p / 128 % 2,
          r8 := st.r8 / 256 * 256 + (p &&& 0x7c) }
  | .pha =>
      fallNext 1
        { st with
          mem := Function.update st.mem (0x100 + st.s) (st.a % 256),
          s := (st.s + 255) % 256 }
  | .pla =>
      let s1 := (st.s + 1) % 256
      let v := st.mem (0x100 + s1) % 256
      fallNext 1 { st with s := s1, a := v, z := zOf v, n := nOf v }
  | .oraImm imm =>
      let v := st.a ||| imm
      fallNext 2 { st with a := v, z := zOf v, n := nOf v }
  | .andImm imm =>
      let v := st.a &&& imm
      fallNext 2 { st with a := v, z := zOf v, n := nOf v }
  | .aslA =>
      let v := st.a * 2 % 256
      fallNext 1
        { st with a := v, c := st.a / 128 % 2, z := zOf v, n := nOf v }
  | .lsrA =>
      let v := st.a / 2
      fallNext 1 { st with a := v, c := st.a % 2, z := zOf v, n := nOf v }
  | .rorA =>
      -- `shr ah, 1` puts C into CF and leaves `c / 2` in `ah` (setting
      -- ZF/SF from that); `rcr al, 1` rotates through CF but sets
      -- neither ZF nor SF, so the Z/N shards are materialized from the
      -- `shr` result.
      let t := st.c / 2
      fallNext 1
        { st with
          a := st.a / 2 + st.c % 2 * 128,
          c := st.a % 2,
          z := zOf t, n := nOf t }
  | .rolZp zp =>
      let t := st.c / 2
      let m := st.mem zp % 256
      fallNext 2
        { st with
          mem := Function.update st.mem zp ((m * 2 + st.c % 2) % 256),
          c := m / 128 % 2,
          z := zOf t, n := nOf t }
  | .rorZp zp =>
      let t := st.c / 2
      let m := st.mem zp % 256
      fallNext 2
        { st with
          mem := Function.update st.mem zp (m / 2 + st.c % 2 * 128),
          c := m % 2,
          z := zOf t, n := nOf t }
  | .bitZp zp =>
      let m := st.mem zp % 256
      fallNext 2
        { st with
          n := nOf m,
          r8 := (st.r8 / 256 * 256 + (st.r8 % 256 &&& 0xbf)) ||| (m &&& 0x40),
          z := zOf (m &&& st.a) }
  | .sec => fallNext 1 { st with c := 1 }
  | .cli => fallNext 1 { st with r8 := st.r8 - (st.r8 &&& 4) }
  | .sei => fallNext 1 { st with r8 := st.r8 ||| 4 }
  | .cld => fallNext 1 { st with r8 := st.r8 - (st.r8 &&& 8) }
  | .bpl tgt => if st.n = 0 then branchTo tgt st else fallNext 2 st
  | .bvc tgt => if st.r8 &&& 0x40 = 0 then branchTo tgt st else fallNext 2 st
  | .bcc tgt => if st.c = 0 then branchTo tgt st else fallNext 2 st
  | .bcs tgt => if st.c = 0 then fallNext 2 st else branchTo tgt st
  | .bne tgt => if st.z = 0 then branchTo tgt st else fallNext 2 st
  | .beq tgt => if st.z = 0 then fallNext 2 st else branchTo tgt st
  | .jsr tgt =>
      -- The emitted code recovers this slot's guest address from rip and
      -- pushes (that + 2) high byte first onto the page-1 stack.
      let ret := st.pc + 2
      let mem1 := Function.update st.mem (0x100 + st.s) (ret / 256 % 256)
      let s1 := (st.s + 255) % 256
      let mem2 := Function.update mem1 (0x100 + s1) (ret % 256)
      let s2 := (s1 + 255) % 256
      if tgt < 0x10000 then .ok { st with mem := mem2, s := s2, pc := tgt }
      else .guard { st with mem := mem2, s := s2 }
  | .jmpAbs tgt =>
      if tgt < 0x10000 then .ok { st with pc := tgt } else .guard st
  | .rts =>
      let s1 := (st.s + 1) % 256
      let lo := st.mem (0x100 + s1) % 256
      let s2 := (s1 + 1) % 256
      let hi := st.mem (0x100 + s2) % 256
      let ret := (lo + 256 * hi + 1) % 0x10000
      .ok { st with s := s2, pc := ret }
  | .staZp zp =>
      fallNext 2 { st with mem := Function.update st.mem zp (st.a % 256) }
  | .staAbs ad =>
      fallNext 3 { st with mem := Function.update st.mem ad (st.a % 256) }
  | .styAbs ad =>
      fallNext 3 { st with mem := Function.update st.mem ad (st.y % 256) }
  | .stxAbs ad =>
      fallNext 3 { st with mem := Function.update st.mem ad (st.x % 256) }
  | .staZpX zp =>
      fallNext 2
        { st with
          mem := Function.update st.mem (effAddrZpX st.x st.y zp) (st.a % 256) }
  | .staAbsX ad =>
      fallNext 3
        { st with
          mem := Function.update st.mem (effAddrAbsX st.x st.y ad) (st.a % 256) }
  | .staAbsY ad =>
      fallNext 3
        { st with
          mem := Function.update st.mem (effAddrAbsY st.x st.y ad) (st.a % 256) }
  | .ldaImm imm => fallNext 2 { st with a := imm, z := zOf imm, n := nOf imm }
  | .ldxImm imm => fallNext 2 { st with x := imm, z := zOf imm, n := nOf imm }
  | .ldyImm imm => fallNext 2 { st with y := imm, z := zOf imm, n := nOf imm }
  | .ldaAbs ad =>
      let v := st.mem ad % 256
      fallNext 3 { st with a := v, z := zOf v, n := nOf v }
  | .ldxAbs ad =>
      let v := st.mem ad % 256
      fallNext 3 { st with x := v, z := zOf v, n := nOf v }
  | .ldyAbs ad =>
      let v := st.mem ad % 256
      fallNext 3 { st with y := v, z := zOf v, n := nOf v }
  | .ldaAbsY ad =>
      -- No Z/N materialization in this emitter.
      fallNext 3 { st with a := st.mem (effAddrAbsY st.x st.y ad) % 256 }
  | .cmpImm imm =>
      let r := (st.a + 256 - imm) % 256
      fallNext 2
        { st with
          c := if imm ≤ st.a then 1 else 0, z := zOf r, n := nOf r }
  | .cpxImm imm =>
      let r := (st.x + 256 - imm) % 256
      fallNext 2
        { st with
          c := if imm ≤ st.x then 1 else 0, z := zOf r, n := nOf r }
  | .cmpAbs ad =>
      let m := st.mem ad % 256
      let r := (st.a + 256 - m) % 256
      fallNext 3
        { st with
          c := if m ≤ st.a then 1 else 0, z := zOf r, n := nOf r }
  | .tax => fallNext 1 { st with x := st.a, z := zOf st.a, n := nOf st.a }
  | .txa => fallNext 1 { st with a := st.x, z := zOf st.x, n := nOf st.x }
  | .txs => fallNext 1 { st with s := st.x % 256 }
  | .inx =>
      let v := (st.x + 1) % 256
      fallNext 1 { st with x := v, z := zOf v, n := nOf v }
  | .dex =>
      let v := (st.x + 255) % 256
      fallNext 1 { st with x := v, z := zOf v, n := nOf v }
  | .dey =>
      let v := (st.y + 255) % 256
      fallNext 1 { st with y := v, z := zOf v, n := nOf v }

/-- Execute the slot `pc` points at. -/
def step (st : St) : StepResult :=
  match st.slots st.pc with
  | .untranslated => .ud st
  | .badOp _ _ _ => .ud st
  | .instr i => exec i st

/-- Run at most `fuel` slots; stops early at a `ud2` or a guard fault. -/
def run : Nat → St → StepResult
  | 0, st => .ok st
  | fuel + 1, st =>
    match step st with
    | .ok st' => run fuel st'
    | r => r

/-- The power-on register state `jit_enter` sets up before jumping into
the arena, entering at guest address `pc`. -/
def powerOn (mem : Nat → Nat) (slots : Nat → Slot) (pc : Nat) : St :=
  { mem := mem, slots := slots,
    a := 0, c := 0, x := 0, y := 0,
    s := 0,                      -- ecx = 0x00000100: cl = 0, ch = 1
    z := 0, n := 0,
    r8 := 0x30,                  -- bit 5 and bit 4 set
    pc := pc }

/-- The state after the PHP slot body and its fall-through: the packed P
byte lands at `[rdi + rcx]` (guest 0x100 + S), then `dec cl`. -/
def phpPost (st : St) : St :=
  { st with
    mem := Function.update st.mem (0x100 + st.s) (packedP st % 256),
    s := (st.s + 255) % 256,
    pc := st.pc + 1 }

/-- The state after the PLP slot body and its fall-through: `inc cl`,
load the packed byte, scatter bits 0/1/7 into the C/Z/N shards, mask the
rest into `r8b`. -/
def plpPost (st : St) : St :=
  { st with
    s := (st.s + 1) % 256,
    c := st.mem (0x100 + (st.s + 1) % 256) % 256 % 2,
    z := st.mem (0x100 + (st.s + 1) % 256) % 256 / 2 % 2,
    n := st.mem (0x100 + (st.s + 1) % 256) % 256 / 128 % 2,
    r8 := st.r8 / 256 * 256 + (st.mem (0x100 + (st.s + 1) % 256) % 256 &&& 0x7c),
    pc := st.pc + 1 }

/-- Run `n` slots, `none` as soon as one does not complete normally. -/
def runOk : Nat → St → Option St
  | 0, st => some st
  | n + 1, st =>
    match step st with
    | .ok st' => runOk n st'
    | _ => none

/-- Did execution stop at a `ud2` sentinel? -/
def isUd (r : StepResult) : Bool :=
  match r with
  | .ud _ => true
  | _ => false

/-- Guest address at which execution stopped on a `ud2`. -/
def udPC (r : StepResult) : Option Nat :=
  match r with
  | .ud s => some s.pc
  | _ => none

/-! ### Concrete scenario: self-modification (for C1)

`A9 01  8D 05 00  A9 FF  00` at guest 0x0000: LDA #$01; STA $0005
(overwriting the opcode byte of the LDA #$FF at 0x0005); then the stale
slot at 0x0005 runs; BRK. -/

def c1mem : Nat → Nat := fun a =>
  if a = 0 then 0xa9 else if a = 1 then 0x01
  else if a = 2 then 0x8d else if a = 3 then 0x05 else if a = 4 then 0x00
  else if a = 5 then 0xa9 else if a = 6 then 0xff
  else 0

def c1st : St := powerOn c1mem (jitTranslate c1mem 0 8 (fun _ => .untranslated)) 0

/-- The state after the first step of `c1st` (LDA #$01), written out. -/
def c1st1 : St := { c1st with a := 1, z := 0, n := 0, pc := 2 }

/-! ### Concrete scenario: JSR/RTS (for C3)

`20 0A C0 00` at 0xC000 and `60` at 0xC00A, translated over
`[0xC000, 0xC00B)`, entered at 0xC000 from power-on state. -/

def c3mem : Nat → Nat := fun a =>
  if a = 0xc000 then 0x20 else if a = 0xc001 then 0x0a
  else if a = 0xc002 then 0xc0 else if a = 0xc00a then 0x60
  else 0

def c3st : St :=
  powerOn c3mem (jitTranslate c3mem 0xc000 0x0b (fun _ => .untranslated)) 0xc000

/-- The register-file conventions the inline asm of `jit_enter`
establishes and every emitted sequence maintains: 8-bit registers hold
bytes, the C/Z/N shards are 0 or 1 (`setcc` results), and `r8` holds a
packed flag byte whose bits 0, 1 and 7 are clear (they are the C, Z and
N positions, which live in their own shards; `jit_enter` starts `r8` at
0x30 and the only writers are `bts`/`btr` on bits 2–3, the BIT emitter
on bit 6, and PLP's `and r8b, 0x7c`). -/
def RegsOK (st : St) : Prop :=
  st.a < 256 ∧ st.x < 256 ∧ st.y < 256 ∧ st.s < 256 ∧
  st.c < 2 ∧ st.z < 2 ∧ st.n < 2 ∧ st.r8 < 128 ∧ st.r8 % 4 = 0

instance (st : St) : Decidable (RegsOK st) := by
  unfold RegsOK
  infer_instance

/-- Operand sanity for a decoded slot: immediate operands are bytes — as
they are whenever the slot was produced by `jitRange`, which reads
operands through `unsigned char`. -/
def InstrWF (i : Instr) : Prop :=
  match i with
  | .oraImm imm => imm < 256
  | .andImm imm => imm < 256
  | .ldaImm imm => imm < 256
  | .ldxImm imm => imm < 256
  | .ldyImm imm => imm < 256
  | _ => True

/-- All translated slots of an arena have byte-valued immediates. -/
def SlotsWF (slots : Nat → Slot) : Prop :=
  ∀ g i, slots g = Slot.instr i → InstrWF i

/-! ### Concrete scenario: PHP; PLP (for C5)

`08 28` at guest 0x0000, with a representative flag state. -/

def c5mem : Nat → Nat := fun a =>
  if a = 0 then 0x08 else if a = 1 then 0x28 else 0

def c5st : St :=
  { powerOn c5mem (jitTranslate c5mem 0 2 (fun _ => .untranslated)) 0 with
    a := 0x42, x := 3, y := 4, s := 0x80, c := 1, z := 1, n := 0, r8 := 0x34 }

/-! ### Concrete scenario: BRK (for C5's second half)

A zeroed guest memory: the byte at 0x0000 is 0x00 (BRK). -/

def c5brkst : St :=
  powerOn (fun _ => 0)
    (jitTranslate (fun _ => 0) 0 1 (fun _ => .untranslated)) 0

/-! ### Concrete scenario: zero-page indexed store (for C7)

`95 FD` (STA $FD,X) at guest 0x0000, with X = 5, Y = 0xFF, A = 0x77. -/

def c7mem : Nat → Nat := fun a =>
  if a = 0 then 0x95 else if a = 1 then 0xfd else 0

def c7st : St :=
  { powerOn c7mem (jitTranslate c7mem 0 2 (fun _ => .untranslated)) 0 with
    a := 0x77, x := 5, y := 0xff }

/-! ### Concrete scenario: absolute store into the I/O strip (for C6)

`A9 42  8D 00 FC` at guest 0x0000: LDA #$42; STA $FC00. -/

def c6mem : Nat → Nat := fun a =>
  if a = 0 then 0xa9 else if a = 1 then 0x42
  else if a = 2 then 0x8d else if a = 3 then 0x00 else if a = 4 then 0xfc
  else 0

def c6st : St := powerOn c6mem (jitTranslate c6mem 0 5 (fun _ => .untranslated)) 0

/-! ### Host-side byte decoders (for stating emission facts) -/

/-- Value of four little-endian bytes, as the host reads a `disp32` or
`rel32` field. -/
def le32 (b : List Nat) : Nat :=
  match b with
  | [b0, b1, b2, b3] => b0 + 256 * b1 + 65536 * b2 + 16777216 * b3
  | _ => 0

/-- Sign extension of a 32-bit value, as the host reads a `rel32`. -/
def sext32 (v : Nat) : Int := if v < 2 ^ 31 then (v : Int) else (v : Int) - 2 ^ 32

/-- Where an emitted conditional jump lands, relative to the start of its
slot: the suffix after `blen` body bytes is decoded as a host `Jcc rel8`
(2 bytes) or `0F Jcc rel32` (6 bytes). -/
def jccDecode (blen : Nat) (suffix : List Nat) : Option Int :=
  match suffix with
  | [_, d] => some (((blen + 2 : Nat) : Int) + sbyte d)
  | [_, _, d0, d1, d2, d3] =>
      some (((blen + 6 : Nat) : Int) +
        sext32 (d0 + 256 * d1 + 65536 * d2 + 16777216 * d3))
  | _ => none

/-! ## Helper lemmas about the translation loop -/

/-- Every entry the `jit_jit` loop produces is placed at
`arena + guest * stride`. -/
theorem jitLoop_host_eq (mem : Nat → Nat) (stride jit_end : Nat) :
    ∀ fuel off, ∀ e ∈ jitLoop mem stride jit_end off fuel,
      e.host = arenaOff + e.guest * stride := by
  intro fuel
  induction fuel with
  | zero => intro off e he; simp [jitLoop] at he
  | succ n ih =>
    intro off e he
    rw [jitLoop] at he
    by_cases h : off < jit_end
    · rw [if_pos h] at he
      rcases List.mem_cons.mp he with h1 | h1
      · subst h1; rfl
      · exact ih (off + 1) e h1
    · rw [if_neg h] at he; simp at he

/-- The guest addresses translated by the loop, in order. -/
theorem jitLoop_guests (mem : Nat → Nat) (stride : Nat) (jit_end : Nat) :
    ∀ fuel off, off + fuel ≤ jit_end →
      (jitLoop mem stride jit_end off fuel).map JitOut.guest =
        List.range' off fuel := by
  intro fuel
  induction fuel with
  | zero => intro off _; simp [jitLoop]
  | succ n ih =>
    intro off h
    rw [jitLoop, if_pos (by omega), List.range']
    simp only [List.map_cons]
    rw [ih (off + 1) (by omega)]

/-- The entry the loop produces for guest byte `g`, with the
operand-clipping conditions evaluated against `jit_end`. -/
theorem jitLoop_mem_entry (mem : Nat → Nat) (stride jit_end : Nat) :
    ∀ fuel off g, off ≤ g → g < off + fuel → g < jit_end →
      (⟨g, arenaOff + g * stride,
        jitBytesOne stride (mem g % 256)
          (if g + 1 < jit_end then mem (g + 1) % 256 else 0)
          (if g + 2 < jit_end then mem (g + 2) % 256 else 0) g⟩ : JitOut) ∈
        jitLoop mem stride jit_end off fuel := by
  intro fuel
  induction fuel with
  | zero => intro off g _ h _; omega
  | succ n ih =>
    intro off g h1 h2 h3
    rw [jitLoop]
    by_cases h : g = off
    · subst h
      rw [if_pos h3]
      exact List.mem_cons_self _ _
    · rw [if_pos (by omega)]
      exact List.mem_cons_of_mem _ (ih (off + 1) g (by omega) (by omega) h3)

/-- `jit_emit_int` stores a nonnegative 32-bit value faithfully. -/
theorem le32_emitInt (v : Nat) (h : v < 2 ^ 32) :
    le32 (jit_emit_int [] ((v : Nat) : Int)) = v := by
  have h1 : ((v : Int) % ((2 : Int) ^ 32)) = (v : Int) :=
    Int.emod_eq_of_lt (by positivity) (by exact_mod_cast h)
  simp only [jit_emit_int, le32, List.nil_append, h1, Int.toNat_natCast]
  simp only [Nat.shiftRight_eq_div_pow]
  omega

/-- **C10** (implicit; from the operand-clipping in `jit_jit`):
when `jit_jit` translates `[off, off+len)`, operand bytes at or past the
end of the range are taken as `0x00` instead of being read from guest
memory: the last guest byte of the range is emitted with both operand
bytes zero, and the second-to-last with its second operand byte zero,
whatever guest memory holds there. -/
theorem c10_operand_clipping (mem : Nat → Nat) (stride off len : Nat)
    (h1 : 1 ≤ len) :
    (⟨off + len - 1, arenaOff + (off + len - 1) * stride,
      jitBytesOne stride (mem (off + len - 1) % 256) 0 0 (off + len - 1)⟩ :
        JitOut) ∈ jit_jit mem stride off len ∧
    (2 ≤ len →
      (⟨off + len - 2, arenaOff + (off + len - 2) * stride,
        jitBytesOne stride (mem (off + len - 2) % 256)
          (mem (off + len - 1) % 256) 0 (off + len - 2)⟩ : JitOut) ∈
        jit_jit mem stride off len) := by
  constructor
  · have h := jitLoop_mem_entry mem stride (off + len) len off (off + len - 1)
      (by omega) (by omega) (by omega)
    rw [if_neg (by omega), if_neg (by omega)] at h
    exact h
  · intro h2
    have h := jitLoop_mem_entry mem stride (off + len) len off (off + len - 2)
      (by omega) (by omega) (by omega)
    rw [if_pos (by omega), if_neg (by omega)] at h
    have e : off + len - 2 + 1 = off + len - 1 := by omega
    rw [e] at h
    exact h

/-- Witness for C10 at a concrete translation: `off = 0xc000`,
`len = 3`, nonzero memory past the clipped operands. -/
theorem c10_operand_clipping_witness :
    (1 ≤ 3) ∧
      ((⟨0xc000 + 3 - 1, arenaOff + (0xc000 + 3 - 1) * 64,
        jitBytesOne 64 ((fun _ => 0xa9 : Nat → Nat) (0xc000 + 3 - 1) % 256) 0 0
          (0xc000 + 3 - 1)⟩ : JitOut) ∈
          jit_jit (fun _ => 0xa9) 64 0xc000 3 ∧
      (2 ≤ 3 →
        (⟨0xc000 + 3 - 2, arenaOff + (0xc000 + 3 - 2) * 64,
          jitBytesOne 64 ((fun _ => 0xa9 : Nat → Nat) (0xc000 + 3 - 2) % 256)
            ((fun _ => 0xa9 : Nat → Nat) (0xc000 + 3 - 1) % 256) 0
            (0xc000 + 3 - 2)⟩ : JitOut) ∈
          jit_jit (fun _ => 0xa9) 64 0xc000 3)) :=
  ⟨by omega, c10_operand_clipping (fun _ => 0xa9) 64 0xc000 3 (by omega)⟩

/-- **C2** (slot stride): the host address of guest byte G's slot is
`arena_base + G * 64`.  (1) `jit_jit` emits the code for each translated
guest byte at exactly that host offset, covering (2) exactly the range
`[off, off+len)` in order; (3) `jit_enter` computes its entry point by
the same map applied to the little-endian word at the vector; (4) the
emitted JMP abs `lea` displacement is `arena_base + target * 64`
(decoding its four bytes little-endian gives that value back); (5) the
emitted JSR ends with the same `lea`, and recovers the current guest
address by dividing by the stride (`shr eax, 6`, 2^6 = 64); (6) the
emitted RTS multiplies the popped address by the stride (`shl eax, 6`)
and adds the arena base. -/
theorem c2_slot_stride (mem : Nat → Nat) (off len vec q op1 op2 : Nat)
    (h1 : op1 < 256) (h2 : op2 < 256) :
    (∀ e ∈ jit_jit mem 64 off len, e.host = arenaOff + e.guest * 64) ∧
    ((jit_jit mem 64 off len).map JitOut.guest = List.range' off len) ∧
    (jit_enter_entry mem 64 vec =
      arenaOff + (((mem (vec + 1) % 256) <<< 8) ||| (mem vec % 256)) * 64) ∧
    (jitBytesOne 64 0x4c op1 op2 q =
      some ([0x48, 0x8d, 0xb7] ++
        jit_emit_int [] (((arenaOff + (op1 + (op2 <<< 8)) * 64 : Nat)) : Int) ++
        [0xff, 0xe6]) ∧
      le32 (jit_emit_int []
          (((arenaOff + (op1 + (op2 <<< 8)) * 64 : Nat)) : Int)) =
        arenaOff + (op1 + (op2 <<< 8)) * 64) ∧
    (∃ l, jitBytesOne 64 0x20 op1 op2 q = some l ∧
      (l.drop 31).take 4 =
        jit_emit_int [] (((arenaOff + (op1 + (op2 <<< 8)) * 64 : Nat)) : Int) ∧
      (l.drop 11).take 3 = [0xc1, 0xe8, 0x06]) ∧
    (∃ l, jitBytesOne 64 0x60 op1 op2 q = some l ∧
      (l.drop 14).take 3 = [0xc1, 0xe0, 0x06] ∧
      (l.drop 17).take 8 =
        [0x48, 0x8d, 0xb4, 0x38] ++ jit_emit_int [] ((arenaOff : Nat) : Int) ∧
      le32 (jit_emit_int [] ((arenaOff : Nat) : Int)) = arenaOff) := by
  have hle : le32 (jit_emit_int []
      (((arenaOff + (op1 + (op2 <<< 8)) * 64 : Nat)) : Int)) =
      arenaOff + (op1 + (op2 <<< 8)) * 64 := by
    apply le32_emitInt
    simp only [Nat.shiftLeft_eq, arenaOff, k_addr_space_size, k_guard_size]
    omega
  refine ⟨jitLoop_host_eq mem 64 (off + len) len off,
    jitLoop_guests mem 64 (off + len) len off (by omega), ?_, ⟨?_, hle⟩,
    ⟨_, rfl, ?_, ?_⟩, ⟨_, rfl, ?_, ?_, ?_⟩⟩
  · rfl
  · simp [jitBytesOne, jit_emit_int, arenaOff, k_addr_space_size, k_guard_size]
  · simp [jit_emit_int, arenaOff, k_addr_space_size, k_guard_size]
  · simp [jit_emit_int, arenaOff, k_addr_space_size, k_guard_size]
  · simp [jit_emit_int, arenaOff, k_addr_space_size, k_guard_size]
  · simp [jit_emit_int, arenaOff, k_addr_space_size, k_guard_size]
  · exact le32_emitInt _ (by norm_num [arenaOff, k_addr_space_size, k_guard_size])

/-- Witness for C2 at concrete inputs. -/
theorem c2_slot_stride_witness :
    (0x0a < 256) ∧ (0xc0 < 256) ∧
      (∀ e ∈ jit_jit (fun _ => 0) 64 0xc000 3, e.host = arenaOff + e.guest * 64) :=
  ⟨by omega, by omega,
    (c2_slot_stride (fun _ => 0) 0xc000 3 0xfffc 0xc000 0x0a 0xc0 (by omega)
      (by omega)).1⟩

/-! ## The `jit_init` fill pattern -/

/-- The sentinel-writing loop never touches offsets below its cursor. -/
theorem jitInitLoop_below :
    ∀ (n p : Nat) (arena : Nat → Nat) (q : Nat), q < p →
      jitInitLoop 64 p n arena q = arena q := by
  intro n
  induction n with
  | zero => intro p arena q _; rfl
  | succ m ih =>
    intro p arena q h
    rw [jitInitLoop, ih (p + 64) _ q (by omega)]
    rw [Function.update_noteq (by omega), Function.update_noteq (by omega)]

/-- The loop writes the 2-byte `ud2` at the start of every slot. -/
theorem jitInitLoop_sentinel :
    ∀ (n p : Nat) (arena : Nat → Nat) (k : Nat), k < n →
      jitInitLoop 64 p n arena (p + k * 64) = 0x0f ∧
      jitInitLoop 64 p n arena (p + k * 64 + 1) = 0x0b := by
  intro n
  induction n with
  | zero => intro p arena k h; omega
  | succ m ih =>
    intro p arena k h
    match k with
    | 0 =>
      rw [jitInitLoop]
      simp only [Nat.zero_mul, Nat.add_zero]
      constructor
      · rw [jitInitLoop_below m (p + 64) _ _ (by omega)]
        rw [Function.update_noteq (by omega), Function.update_same]
      · rw [jitInitLoop_below m (p + 64) _ _ (by omega)]
        rw [Function.update_same]
    | k' + 1 =>
      rw [jitInitLoop]
      have e1 : p + (k' + 1) * 64 = (p + 64) + k' * 64 := by ring
      rw [e1]
      exact ih (p + 64) _ k' (by omega)

/-- Offsets that are not the first two bytes of any slot keep their
`memset` value. -/
theorem jitInitLoop_pad :
    ∀ (n p : Nat) (arena : Nat → Nat) (q : Nat),
      (∀ k, k < n → q ≠ p + k * 64 ∧ q ≠ p + k * 64 + 1) →
      jitInitLoop 64 p n arena q = arena q := by
  intro n
  induction n with
  | zero => intro p arena q _; rfl
  | succ m ih =>
    intro p arena q h
    rw [jitInitLoop]
    rw [ih (p + 64) _ q ?side]
    · have h0 := h 0 (by omega)
      rw [Function.update_noteq (by omega), Function.update_noteq (by omega)]
    case side =>
      intro k hk
      have := h (k + 1) (by omega)
      constructor <;> omega

/-- **C9** (amended): `jit_init` fills every one of the 65536 slots with
the 2-byte invalid-instruction sentinel (`ud2` = `0f 0b`) at the *start*
of the slot, followed by no-op (`0x90`) padding to the end of the slot,
so that entry to any untranslated slot traps deterministically on its
first instruction.  (The code has no per-slot reset function; `jit_init`
is the only writer of this pattern.) -/
theorem c9_init_sentinel_then_pad (G : Nat) (hG : G < 0x10000) :
    jit_init 64 k_addr_space_size (G * 64) = 0x0f ∧
    jit_init 64 k_addr_space_size (G * 64 + 1) = 0x0b ∧
    (∀ j, 2 ≤ j → j < 64 → jit_init 64 k_addr_space_size (G * 64 + j) = 0x90) ∧
    (∀ st : St, st.slots st.pc = .untranslated → step st = .ud st) := by
  have hs := jitInitLoop_sentinel k_addr_space_size 0 (fun _ => 0x90) G
    (by simpa [k_addr_space_size] using hG)
  refine ⟨?_, ?_, ?_, ?_⟩
  · have := hs.1; simpa [jit_init] using this
  · have := hs.2; simpa [jit_init] using this
  · intro j hj1 hj2
    have := jitInitLoop_pad k_addr_space_size 0 (fun _ => 0x90) (G * 64 + j) ?cond
    · simpa [jit_init] using this
    case cond => intro k _; omega
  · intro st h
    simp [step, h]

/-- Witness for C9 at slot 0x1234. -/
theorem c9_init_sentinel_then_pad_witness :
    (0x1234 < 0x10000) ∧ jit_init 64 k_addr_space_size (0x1234 * 64) = 0x0f :=
  ⟨by omega, (c9_init_sentinel_then_pad 0x1234 (by omega)).1⟩

/-- **C9 counterexample**: the claim's layout — no-op padding *followed
by* the sentinel — is not what `jit_init` writes: the first byte of slot
0 is the sentinel byte `0x0f`, not the nop `0x90`, and byte 62 of the
slot (where a padding-then-sentinel layout would put `0x0f`) is the nop
`0x90`. -/
theorem c9_counterexample :
    jit_init 64 k_addr_space_size 0 = 0x0f ∧
    jit_init 64 k_addr_space_size 0 ≠ 0x90 ∧
    jit_init 64 k_addr_space_size 62 = 0x90 ∧
    jit_init 64 k_addr_space_size 62 ≠ 0x0f := by
  have h0 := jitInitLoop_sentinel k_addr_space_size 0 (fun _ => 0x90) 0
    (by norm_num [k_addr_space_size])
  have h62 := jitInitLoop_pad k_addr_space_size 0 (fun _ => 0x90) 62
    (by intro k _; omega)
  refine ⟨?_, ?_, ?_, ?_⟩
  · have := h0.1; simpa [jit_init] using this
  · have := h0.1; simp [jit_init] at this ⊢; simp [this]
  · simpa [jit_init] using h62
  · simp [jit_init] at h62 ⊢; simp [h62]

/-! ## Emission size bounds -/

/-- `jit_emit_do_jmp_next` succeeds (its `assert` holds) and adds 2 or 5
bytes whenever the body so far is short enough. -/
theorem jmpNext_le (b : List Nat) (oplen : Nat) (hb : b.length ≤ 46) :
    ∃ l, jit_emit_do_jmp_next 64 b oplen = some l ∧ l.length ≤ 64 := by
  simp only [jit_emit_do_jmp_next]
  rw [if_pos (by omega)]
  by_cases h1 : (0 ≤ ((64 * oplen : Nat) : Int) - ((b.length + 2 : Nat) : Int) ∧
      ((64 * oplen : Nat) : Int) - ((b.length + 2 : Nat) : Int) ≤ 0x7f)
  · rw [if_pos h1]
    exact ⟨_, rfl, by simp; omega⟩
  · rw [if_neg h1]
    exact ⟨_, rfl, by simp [jit_emit_int]; omega⟩

/-- A conditional-branch emitter (2- or 4-byte flag test, then
`jit_emit_do_relative_jump`, then the fall-through) succeeds and fits the
stride, for every operand byte. -/
theorem relJump_next_some (b : List Nat) (iop op1 : Nat) (hb : b.length ≤ 4) :
    ∃ l, (jit_emit_do_relative_jump 64 b iop op1).bind
        (fun r => jit_emit_do_jmp_next 64 r 2) = some l ∧ l.length ≤ 64 := by
  simp only [jit_emit_do_relative_jump]
  by_cases h1 : (((64 : Nat) : Int) * (sbyte op1 + 2) -
        ((b.length + 2 : Nat) : Int) ≤ 0x7f ∧
      -0x80 ≤ ((64 : Nat) : Int) * (sbyte op1 + 2) - ((b.length + 2 : Nat) : Int))
  · rw [if_pos h1, if_pos (by omega)]
    simp only [Option.some_bind]
    exact jmpNext_le _ _ (by simp; omega)
  · rw [if_neg h1, if_pos (by omega)]
    simp only [Option.some_bind]
    exact jmpNext_le _ _ (by simp [jit_emit_int]; omega)

set_option maxRecDepth 4000 in
/-- **C8** (emission fits the stride): for every opcode byte, all operand
byte values and any guest address, the emitter for one guest byte
succeeds — every `assert` in the emit helpers holds, modelled by the
result being `some` — and writes at most `S = 64` host bytes into the
slot (which also discharges `assert(index <= k_jit_bytes_per_byte)` at
the end of the `jit_jit` loop body). -/
theorem c8_emission_fits_stride (opcode op1 op2 q : Nat) :
    ∃ l, jitBytesOne 64 opcode op1 op2 q = some l ∧ l.length ≤ 64 := by
  unfold jitBytesOne
  split
  all_goals try exact ⟨_, rfl, by simp [jit_emit_int]⟩
  all_goals exact relJump_next_some _ _ op1 (by simp)

/-! ## Branch displacement forms -/

/-- Truncating a signed byte-range value to a byte and sign-extending it
back is the identity. -/
theorem sbyte_roundtrip (o : Int) (h1 : -128 ≤ o) (h2 : o ≤ 127) :
    sbyte ((o % 256).toNat) = o := by
  unfold sbyte
  split <;> omega

/-- The four bytes `jit_emit_int` emits for a signed 32-bit value decode
(sign-extended) back to that value. -/
theorem jccDecode_emitInt (blen a0 a1 : Nat) (o : Int) (h1 : -(2 ^ 31) ≤ o)
    (h2 : o < 2 ^ 31) :
    jccDecode blen ([a0, a1] ++ jit_emit_int [] o) =
      some (((blen + 6 : Nat) : Int) + o) := by
  simp only [jit_emit_int, List.nil_append, List.cons_append, jccDecode]
  congr 1
  simp only [Nat.shiftRight_eq_div_pow]
  unfold sext32
  split <;> omega

set_option maxRecDepth 4000 in
/-- **C4** (amended): for every emitted conditional branch the emitter
uses the short 2-byte host conditional jump exactly when the computed
host byte distance `64·(displacement+2) − (index+2)` fits a signed 8-bit
displacement, and otherwise the 6-byte `0F Jcc rel32` form; both forms
decode to the same jump target, `64·(displacement+2)` host bytes from
the slot start, so their executed semantics are identical.  With stride
64 and the 2-byte BNE flag test, the short form applies exactly to guest
displacements −3…0; a BNE with displacement −126 (`0x82`) and one with
−127 (`0x81`) both use the long form (the spec's claim that −126 is
short does not hold at stride 64). -/
theorem c4_branch_displacement (b : List Nat) (iop op1 : Nat)
    (hb : b.length ≤ 4) (hop : op1 < 256) :
    (∃ suffix, jit_emit_do_relative_jump 64 b iop op1 = some (b ++ suffix) ∧
      (((-128 : Int) ≤ ((64 : Nat) : Int) * (sbyte op1 + 2) -
            ((b.length + 2 : Nat) : Int) ∧
          ((64 : Nat) : Int) * (sbyte op1 + 2) -
            ((b.length + 2 : Nat) : Int) ≤ 127) →
        suffix.length = 2) ∧
      (¬ ((-128 : Int) ≤ ((64 : Nat) : Int) * (sbyte op1 + 2) -
            ((b.length + 2 : Nat) : Int) ∧
          ((64 : Nat) : Int) * (sbyte op1 + 2) -
            ((b.length + 2 : Nat) : Int) ≤ 127) →
        suffix.length = 6) ∧
      jccDecode b.length suffix =
        some (((64 : Nat) : Int) * (sbyte op1 + 2))) ∧
    jitBytesOne 64 0xd0 0xfd 0 0 =
      some [0x84, 0xd2, 0x74, 0xbc, 0xeb, 0x7a] ∧
    jitBytesOne 64 0xd0 0x82 0 0 =
      some [0x84, 0xd2, 0x0f, 0x84, 0xf8, 0xe0, 0xff, 0xff, 0xeb, 0x76] ∧
    jitBytesOne 64 0xd0 0x81 0 0 =
      some [0x84, 0xd2, 0x0f, 0x84, 0xb8, 0xe0, 0xff, 0xff, 0xeb, 0x76] := by
  refine ⟨?_, by decide, by decide, by decide⟩
  have hsb1 : -128 ≤ sbyte op1 := by unfold sbyte; split <;> omega
  have hsb2 : sbyte op1 ≤ 127 := by unfold sbyte; split <;> omega
  simp only [jit_emit_do_relative_jump]
  by_cases h1 : (((64 : Nat) : Int) * (sbyte op1 + 2) -
        ((b.length + 2 : Nat) : Int) ≤ 0x7f ∧
      -0x80 ≤ ((64 : Nat) : Int) * (sbyte op1 + 2) - ((b.length + 2 : Nat) : Int))
  · rw [if_pos h1, if_pos (by omega)]
    refine ⟨[iop, _], rfl, fun _ => rfl, fun hc => absurd ⟨h1.2, h1.1⟩ hc, ?_⟩
    simp only [jccDecode]
    rw [sbyte_roundtrip _ h1.2 h1.1]
    congr 1
    push_cast
    ring
  · rw [if_neg h1, if_pos (by omega)]
    refine ⟨[0x0f, iop + 0x10] ++
      jit_emit_int [] (((64 : Nat) : Int) * (sbyte op1 + 2) -
        ((b.length + 2 : Nat) : Int) - 4), ?_,
      fun hc => absurd ⟨hc.2, hc.1⟩ h1, fun _ => by simp [jit_emit_int], ?_⟩
    · simp [jit_emit_int]
    · rw [jccDecode_emitInt _ _ _ _ (by omega) (by omega)]
      congr 1
      push_cast
      ring

/-- Witness for C4 at the BNE flag-test body and operand 0x82. -/
theorem c4_branch_displacement_witness :
    (([0x84, 0xd2] : List Nat).length ≤ 4) ∧ (0x82 < 256) ∧
      jitBytesOne 64 0xd0 0xfd 0 0 =
        some [0x84, 0xd2, 0x74, 0xbc, 0xeb, 0x7a] :=
  ⟨by decide, by decide,
    (c4_branch_displacement [0x84, 0xd2] 0x74 0x82 (by decide) (by decide)).2.1⟩

set_option maxRecDepth 4000 in
/-- **C4 counterexample**: an emitted BNE with guest displacement −126
(operand byte `0x82`) does *not* use the short host jump: the emitted
bytes after the 2-byte flag test are the 6-byte `0F 84 rel32` long form
(total slot 10 bytes), not the 2-byte `74 rel8` short form (which would
make the slot 6 bytes, as it does for displacement −3). -/
theorem c4_counterexample :
    jit_emit_do_relative_jump 64 [0x84, 0xd2] 0x74 0x82 =
      some [0x84, 0xd2, 0x0f, 0x84, 0xf8, 0xe0, 0xff, 0xff] ∧
    jitBytesOne 64 0xd0 0x82 0 0 =
      some [0x84, 0xd2, 0x0f, 0x84, 0xf8, 0xe0, 0xff, 0xff, 0xeb, 0x76] ∧
    ([0x84, 0xd2, 0x0f, 0x84, 0xf8, 0xe0, 0xff, 0xff, 0xeb, 0x76] : List Nat).length = 10 ∧
    ([0x84, 0xd2, 0x74, 0xbc, 0xeb, 0x7a] : List Nat).length = 6 := by
  refine ⟨by decide, by decide, by decide, by decide⟩

/-! ## Invalidation (or its absence) -/

/-- No emitted sequence writes to the arena: a completed slot leaves the
slot map untouched. -/
theorem step_slots_unchanged (st st' : St) (h : step st = .ok st') :
    st'.slots = st.slots := by
  unfold step at h
  cases hs : st.slots st.pc <;> rw [hs] at h
  · simp at h
  · rename_i i
    cases i <;>
      simp only [exec, fallNext, branchTo] at h <;>
      (repeat' split at h) <;>
      (try (cases h; rfl)) <;>
      simp_all
  · simp at h

/-- **C1** (amended): no emitted store sequence resets any translation
slot — executing translated code never modifies the arena at all.  A
guest store updates guest memory only, so a slot executed after a store
to its source bytes still performs the instruction decoded at
translation time; slots change only when `jit_jit` is run again. -/
theorem c1_stores_do_not_invalidate (st st' : St) (h : step st = .ok st') :
    st'.slots = st.slots :=
  step_slots_unchanged st st' h

/-- Witness for C1's theorem: the first step of the C1 scenario. -/
theorem c1_stores_do_not_invalidate_witness :
    step c1st = .ok c1st1 ∧ c1st1.slots = c1st.slots :=
  ⟨rfl, c1_stores_do_not_invalidate c1st c1st1 rfl⟩

/-- **C1 counterexample**: in the C1 scenario, the store `STA $0005`
(executed as the second instruction) does *not* reset the slot at guest
0x0005: after the store, memory at 0x0005 holds 0x01 but the slot still
holds the `LDA #$FF` decoded at translation time, and the next execution
that reaches 0x0005 loads A = 0xFF — it does not reflect the new byte,
contradicting the claimed invariant. -/
theorem c1_counterexample :
    c1st.slots 0x0005 = Slot.instr (.ldaImm 0xff) ∧
    (runOk 2 c1st).map (fun s => s.mem 0x0005) = some 0x01 ∧
    (runOk 2 c1st).map (fun s => s.slots 0x0005) =
      some (Slot.instr (.ldaImm 0xff)) ∧
    (runOk 3 c1st).map (fun s => s.a) = some 0xff ∧
    (runOk 3 c1st).map (fun s => s.mem 0x0005) = some 0x01 := by
  refine ⟨by decide, by decide, by decide, by decide, by decide⟩

/-! ## JSR / RTS -/

/-- **C3** (amended): in the JSR/RTS scenario (`20 0A C0 00 … @C00A: 60`
entered at 0xC000 from power-on state, where S = 0), the translated JSR
pushes the guest return address 0xC002 onto the page-1 guest stack high
byte first — 0xC0 lands at 0x0100 and 0x02 at 0x01FF (the stack pointer
wraps within page 1), with S = 0xFE during the subroutine — and RTS pops
it, adds 1 and jumps so that execution traps on the BRK opcode byte
(0x00) at 0xC003.  The slot-to-slot transfers are direct host jumps; the
guest return address lives only in guest memory. -/
theorem c3_jsr_rts :
    c3st.slots 0xc000 = Slot.instr (.jsr 0xc00a) ∧
    c3st.slots 0xc00a = Slot.instr .rts ∧
    (runOk 1 c3st).map (fun s => s.mem 0x0100) = some 0xc0 ∧
    (runOk 1 c3st).map (fun s => s.mem 0x01ff) = some 0x02 ∧
    (runOk 1 c3st).map (fun s => s.s) = some 0xfe ∧
    (runOk 1 c3st).map (fun s => s.pc) = some 0xc00a ∧
    (runOk 2 c3st).map (fun s => s.pc) = some 0xc003 ∧
    (runOk 2 c3st).map (fun s => s.s) = some 0x00 ∧
    (runOk 2 c3st).map (fun s => s.slots s.pc) =
      some (Slot.badOp 0x00 0xc0 0x03) ∧
    isUd (run 3 c3st) = true ∧
    udPC (run 3 c3st) = some 0xc003 := by
  refine ⟨by decide, by decide, by decide, by decide, by decide, by decide,
    by decide, by decide, by decide, by decide, by decide⟩

/-- **C3 counterexample**: the claim places the pushed return address at
0x01FE/0x01FF (0x02/0xC0).  In fact, from power-on S = 0 the first push
goes to 0x0100 (before the first `dec cl`), so during the subroutine
0x01FE still holds its initial 0x00 — not 0x02 — and 0x01FF holds 0x02 —
not 0xC0. -/
theorem c3_counterexample :
    (runOk 1 c3st).map (fun s => s.mem 0x01fe) = some 0x00 ∧
    (runOk 1 c3st).map (fun s => s.mem 0x01ff) = some 0x02 ∧
    ((some 0x00 : Option Nat) ≠ some 0x02) ∧
    ((some 0x02 : Option Nat) ≠ some 0xc0) := by
  refine ⟨by decide, by decide, by decide, by decide⟩

/-! ## I/O strip -/

/-- **C6** (amended): loads and stores whose effective address lies in
0xFC00–0xFEFF do *not* trap: the emitted `mov` accesses the flat 64 KiB
guest memory buffer directly, exactly as at any other address, and
execution falls through normally.  No I/O dispatch exists in the
code. -/
theorem c6_no_io_trap (st : St) (ad : Nat) (h1 : 0xfc00 ≤ ad)
    (h2 : ad ≤ 0xfeff) (hpc : st.pc + 3 < 0x10000) :
    (st.slots st.pc = Slot.instr (.staAbs ad) →
      ∃ st', step st = .ok st' ∧ st'.mem ad = st.a % 256 ∧
        (∀ b, b ≠ ad → st'.mem b = st.mem b) ∧ st'.pc = st.pc + 3) ∧
    (st.slots st.pc = Slot.instr (.ldaAbs ad) →
      ∃ st', step st = .ok st' ∧ st'.a = st.mem ad % 256 ∧
        st'.mem = st.mem ∧ st'.pc = st.pc + 3) := by
  constructor
  · intro hs
    refine
      ⟨{ st with
          mem := Function.update st.mem ad (st.a % 256),
          pc := st.pc + 3 },
        ?_, Function.update_same _ _ _,
        fun b hb => Function.update_noteq hb _ _, rfl⟩
    unfold step
    rw [hs]
    simp only [exec, fallNext]
    rw [if_pos (by simpa using hpc)]
  · intro hs
    refine
      ⟨{ st with
          a := st.mem ad % 256,
          z := zOf (st.mem ad % 256),
          n := nOf (st.mem ad % 256),
          pc := st.pc + 3 },
        ?_, rfl, rfl, rfl⟩
    unfold step
    rw [hs]
    simp only [exec, fallNext]
    rw [if_pos (by simpa using hpc)]

/-- Witness for C6: the store conjunct at `c6st` after `LDA #$42`. -/
theorem c6_no_io_trap_witness :
    (0xfc00 ≤ 0xfc00) ∧ (0xfc00 ≤ 0xfeff) ∧ (2 + 3 < 0x10000) ∧
      (∃ st', step c1st = .ok st' ∧ True) ∧
      (∃ st'', step { c6st with a := 0x42, z := 0, n := 0, pc := 2 } = .ok st'' ∧
        st''.mem 0xfc00 = 0x42 % 256 ∧
        (∀ b, b ≠ 0xfc00 →
          st''.mem b = ({ c6st with a := 0x42, z := 0, n := 0, pc := 2 } : St).mem b) ∧
        st''.pc = 2 + 3) := by
  refine ⟨by decide, by decide, by decide, ⟨c1st1, rfl, trivial⟩, ?_⟩
  have h := (c6_no_io_trap { c6st with a := 0x42, z := 0, n := 0, pc := 2 }
    0xfc00 (by decide) (by decide) (by decide)).1 (by decide)
  obtain ⟨st', h1, h2, h3, h4⟩ := h
  exact ⟨st', h1, h2, h3, h4⟩

/-- **C6 counterexample**: executing `LDA #$42; STA $FC00` from power-on
completes both slots normally (no trap) and writes 0x42 straight into
the guest memory buffer at 0xFC00, although 0xFC00 lies in the claimed
I/O strip. -/
theorem c6_counterexample :
    (runOk 2 c6st).map (fun s => s.mem 0xfc00) = some 0x42 ∧
    (runOk 2 c6st).isSome = true ∧
    isUd (run 2 c6st) = false := by
  refine ⟨by decide, by decide, by decide⟩

/-! ## Indexed addressing -/

/-- **C7**: with X = 0x05, a translated `STA $FD,X` (bytes `95 FD`)
stores A at guest 0x0002, not 0x0102: the emitted `add si, op1` /
`and si, 0xff` masks the effective address to 8 bits, and Y — which
shares the host base register `ebx` with X — does not affect it.
Absolute indexed addressing (`STA abs,X`) does not wrap: with X = 0x05
the effective address of base 0x00FD is 0x0102. -/
theorem c7_zp_wrap (st : St) (hx : st.x = 5) (hy : st.y < 256)
    (hpc : st.pc + 2 < 0x10000) :
    effAddrZpX st.x st.y 0xfd = 0x02 ∧
    effAddrAbsX st.x st.y 0xfd = 0x102 ∧
    (st.slots st.pc = Slot.instr (.staZpX 0xfd) →
      ∃ st', step st = .ok st' ∧ st'.mem 0x02 = st.a % 256 ∧
        st'.mem 0x102 = st.mem 0x102 ∧
        (∀ b, b ≠ 0x02 → st'.mem b = st.mem b)) := by
  have he : effAddrZpX st.x st.y 0xfd = 0x02 := by
    rw [hx]
    unfold effAddrZpX
    omega
  refine ⟨he, ?_, ?_⟩
  · rw [hx]
    unfold effAddrAbsX
    omega
  · intro hs
    refine
      ⟨{ st with
          mem := Function.update st.mem (effAddrZpX st.x st.y 0xfd)
            (st.a % 256),
          pc := st.pc + 2 },
        ?_, ?_, ?_, ?_⟩
    · unfold step
      rw [hs]
      simp only [exec, fallNext]
      rw [if_pos (by simpa using hpc)]
    · show Function.update st.mem (effAddrZpX st.x st.y 0xfd)
        (st.a % 256) 0x02 = st.a % 256
      rw [he]
      exact Function.update_same _ _ _
    · show Function.update st.mem (effAddrZpX st.x st.y 0xfd)
        (st.a % 256) 0x102 = st.mem 0x102
      rw [he]
      exact Function.update_noteq (by omega) _ _
    · intro b hb
      show Function.update st.mem (effAddrZpX st.x st.y 0xfd)
        (st.a % 256) b = st.mem b
      rw [he]
      exact Function.update_noteq hb _ _

/-- Witness for C7 at the concrete state `c7st` (X = 5, Y = 0xFF,
A = 0x77, slot 0 translated from bytes `95 FD`). -/
theorem c7_zp_wrap_witness :
    effAddrZpX c7st.x c7st.y 0xfd = 0x02 ∧
    effAddrAbsX c7st.x c7st.y 0xfd = 0x102 ∧
    (∃ st', step c7st = .ok st' ∧ st'.mem 0x02 = c7st.a % 256 ∧
      st'.mem 0x102 = c7st.mem 0x102 ∧
      (∀ b, b ≠ 0x02 → st'.mem b = c7st.mem b)) := by
  have h := c7_zp_wrap c7st rfl (by decide) (by decide)
  exact ⟨h.1, h.2.1, h.2.2 (by decide)⟩

/-! ## Flag round-trip (PHP ; PLP) -/

theorem step_instr (st : St) (i : Instr) (h : st.slots st.pc = .instr i) :
    step st = exec i st := by
  unfold step
  rw [h]

theorem exec_php (st : St) (hpc : st.pc + 1 < 0x10000) :
    exec .php st = .ok (phpPost st) := by
  simp only [exec, fallNext, phpPost]
  rw [if_pos (by simpa using hpc)]

theorem exec_plp (st : St) (hpc : st.pc + 1 < 0x10000) :
    exec .plp st = .ok (plpPost st) := by
  simp only [exec, fallNext, plpPost]
  rw [if_pos (by simpa using hpc)]

theorem packedP_eq (st : St) (ha : st.a < 256) (hz : st.z < 2) :
    packedP st = st.r8 ||| st.c ||| (st.z <<< 1) ||| (st.n <<< 7) := by
  unfold packedP
  have e1 : (st.a + 256 * st.c) >>> 8 = st.c := by
    simp only [Nat.shiftRight_eq_div_pow]
    omega
  have e2 : (st.z + 256 * st.n) &&& 1 = st.z := by
    rw [Nat.and_one_is_mod]
    omega
  have e3 : (st.z + 256 * st.n) >>> 8 = st.n := by
    simp only [Nat.shiftRight_eq_div_pow]
    omega
  rw [e1, e2, e3]

theorem flag_pack_facts_fin :
    ∀ (r8 : Fin 128) (c z n : Fin 2), r8.val % 4 = 0 →
      (r8.val ||| c.val ||| (z.val <<< 1) ||| (n.val <<< 7)) < 256 ∧
      (r8.val ||| c.val ||| (z.val <<< 1) ||| (n.val <<< 7)) % 2 = c.val ∧
      (r8.val ||| c.val ||| (z.val <<< 1) ||| (n.val <<< 7)) / 2 % 2 = z.val ∧
      (r8.val ||| c.val ||| (z.val <<< 1) ||| (n.val <<< 7)) / 128 % 2 = n.val ∧
      ((r8.val ||| c.val ||| (z.val <<< 1) ||| (n.val <<< 7)) &&& 0x7c) = r8.val := by
  decide

theorem flag_pack_facts (r8 : Nat) (h1 : r8 < 128) (h2 : r8 % 4 = 0)
    (c : Nat) (hc : c < 2) (z : Nat) (hz : z < 2) (n : Nat) (hn : n < 2) :
    (r8 ||| c ||| (z <<< 1) ||| (n <<< 7)) < 256 ∧
    (r8 ||| c ||| (z <<< 1) ||| (n <<< 7)) % 2 = c ∧
    (r8 ||| c ||| (z <<< 1) ||| (n <<< 7)) / 2 % 2 = z ∧
    (r8 ||| c ||| (z <<< 1) ||| (n <<< 7)) / 128 % 2 = n ∧
    ((r8 ||| c ||| (z <<< 1) ||| (n <<< 7)) &&& 0x7c) = r8 :=
  flag_pack_facts_fin ⟨r8, h1⟩ ⟨c, hc⟩ ⟨z, hz⟩ ⟨n, hn⟩ h2

theorem c5_php_plp_roundtrip (st : St) (hok : RegsOK st)
    (h1 : st.slots st.pc = Slot.instr .php)
    (h2 : st.slots (st.pc + 1) = Slot.instr .plp)
    (hpc : st.pc + 2 < 0x10000) :
    step st = .ok (phpPost st) ∧
    step (phpPost st) = .ok (plpPost (phpPost st)) ∧
    (phpPost st).mem (0x100 + st.s) = packedP st ∧
    (plpPost (phpPost st)).mem (0x100 + st.s) = packedP st ∧
    (plpPost (phpPost st)).c = st.c ∧
    (plpPost (phpPost st)).z = st.z ∧
    (plpPost (phpPost st)).n = st.n ∧
    (plpPost (phpPost st)).r8 = st.r8 ∧
    (plpPost (phpPost st)).s = st.s ∧
    (plpPost (phpPost st)).a = st.a ∧
    (plpPost (phpPost st)).x = st.x ∧
    (plpPost (phpPost st)).y = st.y ∧
    (plpPost (phpPost st)).pc = st.pc + 2 := by
  obtain ⟨ha, hx, hy, hs, hc, hz, hn, hr1, hr2⟩ := hok
  have hp := flag_pack_facts st.r8 hr1 hr2 st.c hc st.z hz st.n hn
  have hpe : packedP st = st.r8 ||| st.c ||| (st.z <<< 1) ||| (st.n <<< 7) :=
    packedP_eq st ha hz
  have hlt : packedP st < 256 := by rw [hpe]; exact hp.1
  have hmod : packedP st % 256 = packedP st := Nat.mod_eq_of_lt hlt
  have hs1 : ((phpPost st).s + 1) % 256 = st.s := by
    simp only [phpPost]
    omega
  have hread : (phpPost st).mem (0x100 + ((phpPost st).s + 1) % 256) % 256 =
      packedP st := by
    rw [hs1]
    simp only [phpPost]
    rw [Function.update_same]
    omega
  refine ⟨?_, ?_, ?_, ?_, ?_, ?_, ?_, ?_, ?_, ?_, ?_, ?_, ?_⟩
  · rw [step_instr st .php h1, exec_php st (by omega)]
  · rw [step_instr (phpPost st) .plp h2, exec_plp (phpPost st) ?hp]
    case hp => simp only [phpPost]; omega
  · simp only [phpPost]
    rw [Function.update_same]
    exact hmod
  · simp only [plpPost, phpPost]
    rw [Function.update_same]
    exact hmod
  · show (phpPost st).mem (0x100 + ((phpPost st).s + 1) % 256) % 256 % 2 = st.c
    rw [hread, hpe]
    exact hp.2.1
  · show (phpPost st).mem (0x100 + ((phpPost st).s + 1) % 256) % 256 / 2 % 2 = st.z
    rw [hread, hpe]
    exact hp.2.2.1
  · show (phpPost st).mem (0x100 + ((phpPost st).s + 1) % 256) % 256 / 128 % 2 = st.n
    rw [hread, hpe]
    exact hp.2.2.2.1
  · show (phpPost st).r8 / 256 * 256 +
      ((phpPost st).mem (0x100 + ((phpPost st).s + 1) % 256) % 256 &&& 0x7c) = st.r8
    rw [hread, hpe]
    have hr8 : (phpPost st).r8 = st.r8 := rfl
    rw [hr8, hp.2.2.2.2]
    omega
  · exact hs1
  · rfl
  · rfl
  · rfl
  · show (phpPost st).pc + 1 = st.pc + 2
    simp only [phpPost]

/-- Bitwise-or of two bytes is a byte. -/
theorem byte_lor_lt (x y : Nat) (hx : x < 256) (hy : y < 256) :
    (x ||| y) < 256 :=
  Nat.or_lt_two_pow (n := 8) hx hy

set_option maxRecDepth 100000 in
set_option maxHeartbeats 1000000 in
/-- The three ways emitted code rewrites `r8` — the BIT sequence
(`and r8b, 0xbf` / `or r8, rsi` with bit 6 of the operand), PLP's
`and r8b, 0x7c`, and the CLI/SEI/CLD bit flips — keep it below 128 with
bits 0 and 1 clear. -/
theorem r8_update_facts :
    (∀ r8 : Fin 128, r8.val % 4 = 0 → ∀ m : Fin 256,
      ((r8.val &&& 0xbf) ||| (m.val &&& 0x40)) < 128 ∧
      ((r8.val &&& 0xbf) ||| (m.val &&& 0x40)) % 4 = 0) ∧
    (∀ p : Fin 256, (p.val &&& 0x7c) < 128 ∧ (p.val &&& 0x7c) % 4 = 0) ∧
    (∀ r8 : Fin 128, r8.val % 4 = 0 →
      (r8.val ||| 4) < 128 ∧ (r8.val ||| 4) % 4 = 0 ∧
      (r8.val - (r8.val &&& 4)) < 128 ∧ (r8.val - (r8.val &&& 4)) % 4 = 0 ∧
      (r8.val - (r8.val &&& 8)) < 128 ∧ (r8.val - (r8.val &&& 8)) % 4 = 0) := by
  decide

set_option maxRecDepth 8000 in
/-- The register-file conventions are an invariant of execution: every
slot body re-establishes `RegsOK` (so the `RegsOK` hypothesis of the C5
round-trip theorem holds in every state reachable from `jit_enter`'s
power-on state through translated slots). -/
theorem step_preserves_RegsOK (st st' : St) (hwf : SlotsWF st.slots)
    (h : RegsOK st) (hs : step st = .ok st') : RegsOK st' := by
  obtain ⟨ha, hx, hy, hsv, hc, hz, hn, hr1, hr2⟩ := h
  have e0 : st.r8 / 256 = 0 := by omega
  have e1 : st.r8 % 256 = st.r8 := by omega
  have hbit := r8_update_facts.1 ⟨st.r8, hr1⟩ hr2
  have hplp := r8_update_facts.2.1
  have hflg := r8_update_facts.2.2 ⟨st.r8, hr1⟩ hr2
  unfold step at hs
  cases hsl : st.slots st.pc <;> rw [hsl] at hs
  · simp at hs
  · rename_i i
    have hwfi := hwf st.pc i hsl
    cases i <;> simp only [exec, fallNext, branchTo, InstrWF] at hs hwfi
    all_goals (repeat' split at hs)
    all_goals (try (cases hs))
    all_goals try exact ⟨ha, hx, hy, hsv, hc, hz, hn, hr1, hr2⟩
    all_goals refine ⟨?_, ?_, ?_, ?_, ?_, ?_, ?_, ?_, ?_⟩
    all_goals simp only [zOf, nOf, e0, e1, Nat.zero_mul, Nat.zero_add]
    all_goals try omega
    all_goals try (split <;> omega)
    all_goals
      first
        | exact byte_lor_lt st.a _ ha (by omega)
        | exact Nat.lt_of_le_of_lt Nat.and_le_left ha
        | exact (hbit ⟨_, by omega⟩).1
        | exact (hbit ⟨_, by omega⟩).2
        | exact (hplp ⟨_, by omega⟩).1
        | exact (hplp ⟨_, by omega⟩).2
        | exact hflg.1
        | exact hflg.2.1
        | exact hflg.2.2.1
        | exact hflg.2.2.2.1
        | exact hflg.2.2.2.2.1
        | exact hflg.2.2.2.2.2
  · simp at hs

/-- A slot decoded by `jitByte` from byte-valued operands has
byte-valued immediates. -/
theorem jitByte_wf (opcode op1 op2 off : Nat) (h1 : op1 < 256) :
    ∀ i, jitByte opcode op1 op2 off = Slot.instr i → InstrWF i := by
  unfold jitByte
  split <;> intro i hi <;>
    first
      | (cases hi; exact h1)
      | (cases hi; trivial)
      | (cases hi)

/-- Translation preserves arena well-formedness: `jitRange` reads
operands through `unsigned char`, so every slot it writes satisfies
`InstrWF`. -/
theorem jitRange_wf (mem : Nat → Nat) (jit_end : Nat) :
    ∀ fuel off slots, SlotsWF slots →
      SlotsWF (jitRange mem jit_end off fuel slots) := by
  intro fuel
  induction fuel with
  | zero => intro off slots hbase; exact hbase
  | succ m ih =>
    intro off slots hbase
    rw [jitRange]
    by_cases hoff : off < jit_end
    · rw [if_pos hoff]
      apply ih
      intro g i hg
      by_cases hgo : g = off
      · subst hgo
        rw [Function.update_same] at hg
        exact jitByte_wf _ _ _ _ (by split <;> omega) i hg
      · rw [Function.update_noteq hgo] at hg
        exact hbase g i hg
    · rw [if_neg hoff]
      exact hbase

/-- The power-on register state satisfies the conventions. -/
theorem powerOn_RegsOK (mem : Nat → Nat) (slots : Nat → Slot) (pc : Nat) :
    RegsOK (powerOn mem slots pc) := by
  unfold RegsOK powerOn
  norm_num

/-- Witness for C5 at the concrete state `c5st` (flags C=1 Z=1 N=0,
r8 = 0x34, S = 0x80; slots translated from `08 28`). -/
theorem c5_php_plp_roundtrip_witness :
    step c5st = .ok (phpPost c5st) ∧
    step (phpPost c5st) = .ok (plpPost (phpPost c5st)) ∧
    (plpPost (phpPost c5st)).c = c5st.c ∧
    (plpPost (phpPost c5st)).z = c5st.z ∧
    (plpPost (phpPost c5st)).n = c5st.n ∧
    (plpPost (phpPost c5st)).r8 = c5st.r8 ∧
    (plpPost (phpPost c5st)).s = c5st.s := by
  have h := c5_php_plp_roundtrip c5st (by decide) (by decide) (by decide)
    (by decide)
  exact ⟨h.1, h.2.1, h.2.2.2.2.1, h.2.2.2.2.2.1, h.2.2.2.2.2.2.1,
    h.2.2.2.2.2.2.2.1, h.2.2.2.2.2.2.2.2.1⟩

/-- **C5 counterexample**: the claim's second half — "likewise BRK/RTI
round-trips the full state" — fails because neither BRK (0x00) nor RTI
(0x40) is implemented: both fall into the default case of the `switch`
and are translated to the invalid-instruction sentinel (`ud2`, opcode,
big-endian guest address), so executing a BRK traps immediately instead
of pushing state, and no RTI-based round trip can occur. -/
theorem c5_counterexample :
    jitByte 0x00 0x00 0x00 0xc000 = Slot.badOp 0x00 0xc0 0x00 ∧
    jitByte 0x40 0x00 0x00 0xc000 = Slot.badOp 0x40 0xc0 0x00 ∧
    c5brkst.slots 0 = Slot.badOp 0x00 0x00 0x00 ∧
    isUd (step c5brkst) = true := by
  refine ⟨by decide, by decide, by decide, by decide⟩

end Beebjit
